import Mathlib

/-!
Shallow embedding of the knowledge-graph memory server
(src/servers/memory/main.py) and proofs about its operations.

The persisted log is modelled as `Option (List LogRecord)`: `none` is a
missing file, `some recs` is the file holding one record per line in order.
Timestamps (`datetime.utcnow().isoformat()`) are modelled by an explicit
`now : String` argument.
-/

namespace KG

/-- The pydantic model `Entity`: name, entityType, observations plus optional
metadata fields, all defaulting to `None`. -/
structure Entity where
  name : String
  entityType : String
  observations : List String
  created_at : Option String := none
  updated_at : Option String := none
  source : Option String := none
  user_id : Option String := none
  tags : Option (List String) := none
deriving Repr, DecidableEq

/-- The pydantic model `Relation`: a directed typed edge. The Python field is
called `from_` (serialized under the alias "from"). -/
structure Relation where
  from_ : String
  to_ : String
  relationType : String
deriving Repr, DecidableEq

/-- The pydantic model `KnowledgeGraph`: the full in-memory state. -/
structure KnowledgeGraph where
  entities : List Entity
  relations : List Relation
deriving Repr, DecidableEq

/-- One item of an AddObservations request. -/
structure ObservationItem where
  entityName : String
  contents : List String
deriving Repr, DecidableEq

/-- One item of a DeleteObservations request. -/
structure DeletionItem where
  entityName : String
  observations : List String
deriving Repr, DecidableEq

/-- One element of the add_observations response:
`{"entityName": ..., "addedObservations": ...}`. -/
structure ObsResult where
  entityName : String
  addedObservations : List String
deriving Repr, DecidableEq

/-- One line of the persisted log: a record tagged `"type": "entity"` or
`"type": "relation"`. -/
inductive LogRecord where
  | entity (e : Entity)
  | relation (r : Relation)
deriving Repr, DecidableEq

/-- The state of the log file: `none` when the file does not exist. -/
abbrev LogState := Option (List LogRecord)

/-- The loop body of `read_graph_file`: walk the lines in order, appending
entity records to the entity list and relation records to the relation list. -/
def read_records : List LogRecord → KnowledgeGraph
  | [] => ⟨[], []⟩
  | .entity e :: rest =>
    let g := read_records rest
    ⟨e :: g.entities, g.relations⟩
  | .relation r :: rest =>
    let g := read_records rest
    ⟨g.entities, r :: g.relations⟩

/-- `read_graph_file` (main.py lines 84-96): a missing file loads as the empty
graph; otherwise the lines are decoded in order. -/
def read_graph_file : LogState → KnowledgeGraph
  | none => ⟨[], []⟩
  | some recs => read_records recs

/-- `save_graph` (main.py lines 98-102): writes every entity record then every
relation record, in their in-memory order, replacing the whole file. -/
def save_graph (g : KnowledgeGraph) : List LogRecord :=
  g.entities.map .entity ++ g.relations.map .relation

/-- The set `existing = {e.name for e in graph.entities}` as a list. -/
def entity_names (g : KnowledgeGraph) : List String :=
  g.entities.map Entity.name

/-- `create_entities` (main.py lines 105-113). The list comprehension builds
`Entity(**e.dict(), created_at=now)` for each request entity whose name is not
already taken. Since `e.dict()` already contains the key `created_at`, that
call raises `TypeError: got multiple values for keyword argument` as soon as
one entity passes the name filter; so the operation errors whenever the request
holds at least one entity with a fresh name, and otherwise inserts nothing and
returns the empty list. -/
def create_entities (g : KnowledgeGraph) (req : List Entity) (now : String) :
    Except String (KnowledgeGraph × List Entity) :=
  let _ := now
  if req.any (fun e => !(entity_names g).contains e.name) then
    .error "TypeError: got multiple values for keyword argument created_at"
  else
    .ok (g, [])

/-- The identity triple `(r.from_, r.to_, r.relationType)` of a relation. -/
def rtriple (r : Relation) : String × String × String :=
  (r.from_, r.to_, r.relationType)

/-- `create_relations` (main.py lines 115-122): keeps exactly the request
relations whose triple is not among the triples already stored, appends them,
and returns them. The duplicate check is only against the pre-existing graph,
not between elements of the request. -/
def create_relations (g : KnowledgeGraph) (req : List Relation) :
    KnowledgeGraph × List Relation :=
  let existing := g.relations.map rtriple
  let new := req.filter (fun r => !existing.contains (rtriple r))
  (⟨g.entities, g.relations ++ new⟩, new)

/-- One iteration of the `add_observations` loop, acting on the entity list:
find the first entity called `n`; extend its observations with the contents
not already present (computed against the observations before this item) and
set `updated_at := now` unconditionally. `none` means no entity is called `n`. -/
def addToEntities (es : List Entity) (n : String) (cs : List String) (now : String) :
    Option (List Entity × List String) :=
  match es with
  | [] => none
  | e :: rest =>
    if e.name == n then
      let added := cs.filter (fun c => !e.observations.contains c)
      some ({ e with observations := e.observations ++ added, updated_at := some now } :: rest,
            added)
    else
      match addToEntities rest n cs now with
      | none => none
      | some (rest2, added) => some (e :: rest2, added)

/-- `add_observations` (main.py lines 124-138): process the items in order,
mutating the graph; raise 404 `"Entity {name} not found"` at the first item
whose entity is missing (before any save). -/
def add_observations (g : KnowledgeGraph) (items : List ObservationItem) (now : String) :
    Except String (KnowledgeGraph × List ObsResult) :=
  match items with
  | [] => .ok (g, [])
  | it :: rest =>
    match addToEntities g.entities it.entityName it.contents now with
    | none => .error ("Entity " ++ it.entityName ++ " not found")
    | some (es2, added) =>
      match add_observations ⟨es2, g.relations⟩ rest now with
      | .error m => .error m
      | .ok (g2, results) => .ok (g2, ⟨it.entityName, added⟩ :: results)

/-- `delete_entities` (main.py lines 140-146): drop every entity whose name is
listed and every relation one of whose endpoints is listed. -/
def delete_entities (g : KnowledgeGraph) (names : List String) : KnowledgeGraph :=
  ⟨g.entities.filter (fun e => !names.contains e.name),
   g.relations.filter (fun r => !names.contains r.from_ && !names.contains r.to_)⟩

/-- One iteration of the `delete_observations` loop on the entity list: if some
entity is called `n`, the first such entity has the listed observation strings
filtered out of its sequence and `updated_at` set, whether or not anything was
removed; all other entities are untouched. -/
def delObsEntities (es : List Entity) (n : String) (obs : List String) (now : String) :
    List Entity :=
  match es with
  | [] => []
  | e :: rest =>
    if e.name == n then
      { e with observations := e.observations.filter (fun o => !obs.contains o),
               updated_at := some now } :: rest
    else
      e :: delObsEntities rest n obs now

/-- `delete_observations` (main.py lines 148-157): apply the deletion items in
order; entries naming a missing entity are skipped silently. -/
def delete_observations (g : KnowledgeGraph) (ds : List DeletionItem) (now : String) :
    KnowledgeGraph :=
  ds.foldl (fun acc d => ⟨delObsEntities acc.entities d.entityName d.observations now,
                          acc.relations⟩) g

/-- `delete_relations` (main.py lines 159-165): drop every stored relation
whose triple occurs among the request triples. -/
def delete_relations (g : KnowledgeGraph) (req : List Relation) : KnowledgeGraph :=
  let del := req.map rtriple
  ⟨g.entities, g.relations.filter (fun r => !del.contains (rtriple r))⟩

/-- `read_graph` (main.py lines 167-169) returns the loaded graph unchanged. -/
def read_graph (g : KnowledgeGraph) : KnowledgeGraph := g

/-- Case-insensitive substring test: `needle.lower() in hay.lower()`,
modelled as per-character lowering of the character sequences followed by a
contiguous-subsequence test. -/
def lowerContains (needle hay : String) : Bool :=
  decide (List.IsInfix (needle.data.map Char.toLower) (hay.data.map Char.toLower))

/-- The entity predicate of `search_nodes`: the query matches the name, the
entityType, or some observation, case-insensitively. -/
def entity_matches (q : String) (e : Entity) : Bool :=
  lowerContains q e.name || lowerContains q e.entityType ||
    e.observations.any (fun o => lowerContains q o)

/-- `search_nodes` (main.py lines 171-181): filter the entities by the query,
then keep only relations both of whose endpoints are selected names. The
request model `SearchNodesRequest` carries a single required field `query`;
any other field in the request body is ignored. -/
def search_nodes (g : KnowledgeGraph) (query : String) : KnowledgeGraph :=
  let entities := g.entities.filter (entity_matches query)
  let names := entities.map Entity.name
  ⟨entities, g.relations.filter (fun r => names.contains r.from_ && names.contains r.to_)⟩

/-- `open_nodes` (main.py lines 183-189): select entities by exact name
membership, projecting relations the same way as `search_nodes`. -/
def open_nodes (g : KnowledgeGraph) (names : List String) : KnowledgeGraph :=
  let entities := g.entities.filter (fun e => names.contains e.name)
  let ens := entities.map Entity.name
  ⟨entities, g.relations.filter (fun r => ens.contains r.from_ && ens.contains r.to_)⟩

/-- Modelled from the spec: the four-predicate search filter described in
section 4.1 of the specification (`query`, `tags`, `source`, `user_id`), which
has no counterpart in the source, whose request model holds only `query`. -/
structure SearchFilter where
  query : Option String := none
  tags : Option (List String) := none
  source : Option String := none
  user_id : Option String := none
deriving Repr, DecidableEq

/-- Modelled from the spec: an entity passes the filter when every supplied
predicate holds — case-insensitive substring query against name, entityType or
any observation; tag-set intersection; exact source; exact user_id. -/
def entity_matches_filter (f : SearchFilter) (e : Entity) : Bool :=
  (match f.query with
   | none => true
   | some q => entity_matches q e) &&
  (match f.tags with
   | none => true
   | some ts => (e.tags.getD []).any (fun t => ts.contains t)) &&
  (match f.source with
   | none => true
   | some s => e.source == some s) &&
  (match f.user_id with
   | none => true
   | some u => e.user_id == some u)

/-- Modelled from the spec: SearchNodes as the specification describes it,
selecting entities by the conjunction of all supplied predicates and projecting
relations onto the selected names. -/
def search_nodes_spec (g : KnowledgeGraph) (f : SearchFilter) : KnowledgeGraph :=
  let entities := g.entities.filter (entity_matches_filter f)
  let names := entities.map Entity.name
  ⟨entities, g.relations.filter (fun r => names.contains r.from_ && names.contains r.to_)⟩

/-- The create_entities endpoint: load, run, and save only when no exception
was raised. -/
def create_entities_endpoint (s : LogState) (req : List Entity) (now : String) :
    LogState × Except String (List Entity) :=
  match create_entities (read_graph_file s) req now with
  | .error m => (s, .error m)
  | .ok (g2, out) => (some (save_graph g2), .ok out)

/-- The create_relations endpoint: load, run, save. -/
def create_relations_endpoint (s : LogState) (req : List Relation) :
    LogState × List Relation :=
  let p := create_relations (read_graph_file s) req
  (some (save_graph p.1), p.2)

/-- The add_observations endpoint: load, run, and save only when every item
resolved; the 404 is raised before `save_graph`, leaving the file untouched. -/
def add_observations_endpoint (s : LogState) (items : List ObservationItem) (now : String) :
    LogState × Except String (List ObsResult) :=
  match add_observations (read_graph_file s) items now with
  | .error m => (s, .error m)
  | .ok (g2, results) => (some (save_graph g2), .ok results)

/-- The delete_entities endpoint: load, run, save. -/
def delete_entities_endpoint (s : LogState) (names : List String) : LogState :=
  some (save_graph (delete_entities (read_graph_file s) names))

/-- The delete_observations endpoint: load, run, save. -/
def delete_observations_endpoint (s : LogState) (ds : List DeletionItem) (now : String) :
    LogState :=
  some (save_graph (delete_observations (read_graph_file s) ds now))

/-- The delete_relations endpoint: load, run, save. -/
def delete_relations_endpoint (s : LogState) (req : List Relation) : LogState :=
  some (save_graph (delete_relations (read_graph_file s) req))

/-- The read_graph endpoint: load and return; the file is never written. -/
def read_graph_endpoint (s : LogState) : LogState × KnowledgeGraph :=
  (s, read_graph (read_graph_file s))

/-- The search_nodes endpoint: load, filter and return; the file is never
written. -/
def search_nodes_endpoint (s : LogState) (query : String) : LogState × KnowledgeGraph :=
  (s, search_nodes (read_graph_file s) query)

/-- The open_nodes endpoint: load, select and return; the file is never
written. -/
def open_nodes_endpoint (s : LogState) (names : List String) : LogState × KnowledgeGraph :=
  (s, open_nodes (read_graph_file s) names)

/-- The name of the first AddObservations item whose entity is missing from
the graph, if any; entity names are stable across the loop, so this is the
name the 404 reports. -/
def firstMissing (g : KnowledgeGraph) : List ObservationItem → Option String
  | [] => none
  | it :: rest =>
    if g.entities.any (fun e => e.name == it.entityName) then firstMissing g rest
    else some it.entityName

/-! ### Codec lemmas: loading a saved graph gives back the graph -/

theorem read_records_map_relation (rs : List Relation) :
    read_records (rs.map .relation) = ⟨[], rs⟩ := by
  induction rs with
  | nil => rfl
  | cons r rs ih => simp [read_records, ih]

theorem read_records_save (g : KnowledgeGraph) : read_records (save_graph g) = g := by
  obtain ⟨es, rs⟩ := g
  simp only [save_graph]
  induction es with
  | nil => simpa using read_records_map_relation rs
  | cons e es ih => simp [read_records, ih]

theorem read_graph_file_save (g : KnowledgeGraph) :
    read_graph_file (some (save_graph g)) = g := by
  simpa [read_graph_file] using read_records_save g

/-- C9: for every graph with no duplicate entity names and no duplicate
relation triples, serializing, deserializing the result, and serializing again
yields the identical log content. (The embedding makes this stable for every
graph; the claim's duplicate-freedom hypotheses are kept as stated.) -/
theorem save_load_save_c9 (g : KnowledgeGraph)
    (hn : (g.entities.map Entity.name).Nodup)
    (ht : (g.relations.map rtriple).Nodup) :
    save_graph (read_graph_file (some (save_graph g))) = save_graph g := by
  rw [read_graph_file_save]

/-- Witness for C9 at a concrete one-entity, one-relation graph. -/
theorem save_load_save_c9_witness :
    ((⟨[{ name := "alpha", entityType := "person", observations := ["likes tea"] }],
       [⟨"alpha", "beta", "knows"⟩]⟩ : KnowledgeGraph).entities.map Entity.name).Nodup ∧
    ((⟨[{ name := "alpha", entityType := "person", observations := ["likes tea"] }],
       [⟨"alpha", "beta", "knows"⟩]⟩ : KnowledgeGraph).relations.map rtriple).Nodup ∧
    save_graph (read_graph_file (some (save_graph
      (⟨[{ name := "alpha", entityType := "person", observations := ["likes tea"] }],
        [⟨"alpha", "beta", "knows"⟩]⟩ : KnowledgeGraph)))) =
    save_graph (⟨[{ name := "alpha", entityType := "person", observations := ["likes tea"] }],
        [⟨"alpha", "beta", "knows"⟩]⟩ : KnowledgeGraph) :=
  ⟨by decide, by decide,
   save_load_save_c9 _ (by decide) (by decide)⟩

/-- C8 counterexample: the claim says every operation, read-only ones
included, persists the resulting state back by rewriting the whole file. At
the concrete state where the log file does not exist, the read_graph endpoint
leaves the file missing, whereas rewriting the loaded (empty) state would
create it. -/
theorem read_graph_endpoint_c8_counterexample :
    ¬ ((read_graph_endpoint none).1 = some (save_graph (read_graph_file none))) := by
  decide

/-- C8 (amended): every mutating endpoint materializes the on-disk state,
applies the operation and rewrites the whole file from the result, so that a
subsequent load sees exactly the operation's output graph (and a raising
operation leaves the state untouched); the read-only endpoints read_graph,
search_nodes and open_nodes only load and never write. -/
theorem endpoints_c8 (s : LogState) (ents : List Entity) (rels : List Relation)
    (items : List ObservationItem) (dels : List DeletionItem)
    (enames : List String) (onames : List String) (q : String) (now : String) :
    read_graph_file (create_relations_endpoint s rels).1 =
      (create_relations (read_graph_file s) rels).1
    ∧ read_graph_file (delete_entities_endpoint s enames) =
      delete_entities (read_graph_file s) enames
    ∧ read_graph_file (delete_observations_endpoint s dels now) =
      delete_observations (read_graph_file s) dels now
    ∧ read_graph_file (delete_relations_endpoint s rels) =
      delete_relations (read_graph_file s) rels
    ∧ read_graph_file (create_entities_endpoint s ents now).1 =
      (match create_entities (read_graph_file s) ents now with
       | .ok p => p.1
       | .error _ => read_graph_file s)
    ∧ (create_entities_endpoint s ents now).1 =
      (match create_entities (read_graph_file s) ents now with
       | .ok p => some (save_graph p.1)
       | .error _ => s)
    ∧ read_graph_file (add_observations_endpoint s items now).1 =
      (match add_observations (read_graph_file s) items now with
       | .ok p => p.1
       | .error _ => read_graph_file s)
    ∧ (add_observations_endpoint s items now).1 =
      (match add_observations (read_graph_file s) items now with
       | .ok p => some (save_graph p.1)
       | .error _ => s)
    ∧ (read_graph_endpoint s).1 = s
    ∧ (search_nodes_endpoint s q).1 = s
    ∧ (open_nodes_endpoint s onames).1 = s := by
  refine ⟨?_, ?_, ?_, ?_, ?_, ?_, ?_, ?_, rfl, rfl, rfl⟩
  · simp [create_relations_endpoint, read_graph_file_save]
  · simp [delete_entities_endpoint, read_graph_file_save]
  · simp [delete_observations_endpoint, read_graph_file_save]
  · simp [delete_relations_endpoint, read_graph_file_save]
  · unfold create_entities_endpoint
    cases h : create_entities (read_graph_file s) ents now with
    | error m => simp [h]
    | ok p => simp [h, read_graph_file_save]
  · unfold create_entities_endpoint
    cases h : create_entities (read_graph_file s) ents now with
    | error m => simp [h]
    | ok p => simp [h]
  · unfold add_observations_endpoint
    cases h : add_observations (read_graph_file s) items now with
    | error m => simp [h]
    | ok p => simp [h, read_graph_file_save]
  · unfold add_observations_endpoint
    cases h : add_observations (read_graph_file s) items now with
    | error m => simp [h]
    | ok p => simp [h]

/-- Witness for C8 at concrete inputs (empty state, singleton requests). -/
theorem endpoints_c8_witness :
    read_graph_file (create_relations_endpoint none [⟨"a", "b", "knows"⟩]).1 =
      (create_relations (read_graph_file none) [⟨"a", "b", "knows"⟩]).1
    ∧ (read_graph_endpoint (some [])).1 = some [] :=
  ⟨(endpoints_c8 none [] [⟨"a", "b", "knows"⟩] [] [] [] [] "q" "t").1,
   (endpoints_c8 (some []) [] [] [] [] [] [] "q" "t").2.2.2.2.2.2.2.2.1⟩

/-- C7: delete_entities removes exactly the entities whose name is listed and
exactly the relations one of whose endpoints is listed; names not present are
simply ignored, and after the operation the loaded graph holds no entity with
a deleted name and no relation referencing one. -/
theorem delete_entities_c7 (s : LogState) (names : List String) :
    (∀ e : Entity,
      e ∈ (read_graph_file (delete_entities_endpoint s names)).entities ↔
        e ∈ (read_graph_file s).entities ∧ e.name ∉ names)
    ∧ (∀ r : Relation,
      r ∈ (read_graph_file (delete_entities_endpoint s names)).relations ↔
        r ∈ (read_graph_file s).relations ∧ r.from_ ∉ names ∧ r.to_ ∉ names) := by
  unfold delete_entities_endpoint
  rw [read_graph_file_save]
  constructor
  · intro e
    simp [delete_entities, List.mem_filter]
  · intro r
    simp [delete_entities, List.mem_filter, and_assoc]

/-- Witness for C7: with entities A and B and a relation A→B on disk, deleting
"A" keeps B and drops the relation touching A. -/
theorem delete_entities_c7_witness :
    ({ name := "B", entityType := "T", observations := [] } : Entity) ∈
      (read_graph_file (delete_entities_endpoint
        (some [.entity { name := "A", entityType := "T", observations := [] },
               .entity { name := "B", entityType := "T", observations := [] },
               .relation ⟨"A", "B", "knows"⟩]) ["A"])).entities
    ∧ (⟨"A", "B", "knows"⟩ : Relation) ∉
      (read_graph_file (delete_entities_endpoint
        (some [.entity { name := "A", entityType := "T", observations := [] },
               .entity { name := "B", entityType := "T", observations := [] },
               .relation ⟨"A", "B", "knows"⟩]) ["A"])).relations :=
  ⟨((delete_entities_c7 _ ["A"]).1 _).mpr (by constructor <;> decide),
   fun hmem => by
    have h := ((delete_entities_c7 _ ["A"]).2 _).mp hmem
    exact absurd h.2.1 (by decide)⟩

/-- C1 counterexample: on the empty graph, one create_relations call whose
request repeats the same triple twice stores both copies, so two relations in
the stored graph share a `(from, to, relationType)` triple after the call. -/
theorem create_relations_c1_counterexample :
    ¬ (((create_relations ⟨[], []⟩
          [⟨"a", "b", "knows"⟩, ⟨"a", "b", "knows"⟩]).1.relations.map rtriple).Nodup) := by
  decide

/-- C1 (amended): create_relations drops exactly the request relations whose
triple already exists in the pre-existing graph (they are absent from the
returned created subset), appends the rest in order, and leaves the entities
alone; deduplication is only against the stored graph, not within the request,
so the no-two-relations-share-a-triple invariant is preserved only when the
request triples are themselves pairwise distinct. -/
theorem create_relations_c1 (g : KnowledgeGraph) (req : List Relation)
    (hg : (g.relations.map rtriple).Nodup) (hreq : (req.map rtriple).Nodup) :
    (create_relations g req).2 =
      req.filter (fun r => !(g.relations.map rtriple).contains (rtriple r))
    ∧ (create_relations g req).1.relations = g.relations ++ (create_relations g req).2
    ∧ (create_relations g req).1.entities = g.entities
    ∧ (∀ r ∈ req, rtriple r ∈ g.relations.map rtriple → r ∉ (create_relations g req).2)
    ∧ ((create_relations g req).1.relations.map rtriple).Nodup := by
  refine ⟨rfl, rfl, rfl, ?_, ?_⟩
  · intro r hr hmem hnew
    rw [show (create_relations g req).2 =
          req.filter (fun r => !(g.relations.map rtriple).contains (rtriple r)) from rfl,
        List.mem_filter] at hnew
    have hout : rtriple r ∉ g.relations.map rtriple := by simpa using hnew.2
    exact hout hmem
  · show ((g.relations ++ req.filter _).map rtriple).Nodup
    rw [List.map_append, List.nodup_append]
    refine ⟨hg, ?_, ?_⟩
    · exact hreq.sublist ((List.filter_sublist _).map _)
    · intro t htg htn
      rw [List.mem_map] at htn
      obtain ⟨r, hrmem, rfl⟩ := htn
      rw [List.mem_filter] at hrmem
      have hout : rtriple r ∉ g.relations.map rtriple := by simpa using hrmem.2
      exact hout htg

/-- Witness for C1 at a concrete graph and request: one request triple already
stored, one fresh. -/
theorem create_relations_c1_witness :
    (((create_relations ⟨[], [⟨"a", "b", "knows"⟩]⟩
        [⟨"a", "b", "knows"⟩, ⟨"a", "c", "likes"⟩]).1.relations.map rtriple).Nodup)
    ∧ (⟨"a", "b", "knows"⟩ : Relation) ∉
        (create_relations ⟨[], [⟨"a", "b", "knows"⟩]⟩
          [⟨"a", "b", "knows"⟩, ⟨"a", "c", "likes"⟩]).2 :=
  ⟨(create_relations_c1 ⟨[], [⟨"a", "b", "knows"⟩]⟩
      [⟨"a", "b", "knows"⟩, ⟨"a", "c", "likes"⟩] (by decide) (by decide)).2.2.2.2,
   (create_relations_c1 ⟨[], [⟨"a", "b", "knows"⟩]⟩
      [⟨"a", "b", "knows"⟩, ⟨"a", "c", "likes"⟩] (by decide) (by decide)).2.2.2.1
      ⟨"a", "b", "knows"⟩ (by decide) (by decide)⟩

/-- C6 counterexample: the code's search request holds only `query`; a `tags`
predicate supplied alongside an empty query is ignored, so the operation
returns the untagged entity B as well, while the claimed conjunction semantics
(search_nodes_spec) selects only the tagged entity A. -/
theorem search_nodes_c6_counterexample :
    ¬ (search_nodes
        ⟨[{ name := "A", entityType := "T", observations := [], tags := some ["x"] },
          { name := "B", entityType := "T", observations := [] }], []⟩ "" =
       search_nodes_spec
        ⟨[{ name := "A", entityType := "T", observations := [], tags := some ["x"] },
          { name := "B", entityType := "T", observations := [] }], []⟩
        { query := some "", tags := some ["x"] }) := by
  decide

/-- C6 (amended): the implemented filter is the free-text query alone (the
request model has no tags, source or user_id fields; anything else in the
request body is ignored), and on query-only filters search_nodes agrees
exactly with the specified semantics: case-insensitive substring match of the
query against name, entityType or any observation, and relations kept exactly
when both endpoints are selected names. -/
theorem search_nodes_c6 (g : KnowledgeGraph) (q : String) :
    search_nodes g q = search_nodes_spec g { query := some q } := by
  have hfil : g.entities.filter (entity_matches_filter { query := some q }) =
      g.entities.filter (entity_matches q) := by
    apply List.filter_congr
    intro e _
    simp [entity_matches_filter]
  simp only [search_nodes, search_nodes_spec, hfil]

/-- Witness for C6: the projection scenario at a concrete graph — the query
matches X but not Y, the relation X→Y exists, and the result keeps X with no
relations. -/
theorem search_nodes_c6_witness :
    search_nodes
      ⟨[{ name := "X", entityType := "T", observations := [] },
        { name := "Y", entityType := "T", observations := [] }],
       [⟨"X", "Y", "knows"⟩]⟩ "x" =
    search_nodes_spec
      ⟨[{ name := "X", entityType := "T", observations := [] },
        { name := "Y", entityType := "T", observations := [] }],
       [⟨"X", "Y", "knows"⟩]⟩ { query := some "x" }
    ∧ search_nodes
      ⟨[{ name := "X", entityType := "T", observations := [] },
        { name := "Y", entityType := "T", observations := [] }],
       [⟨"X", "Y", "knows"⟩]⟩ "x" =
      ⟨[{ name := "X", entityType := "T", observations := [] }], []⟩ :=
  ⟨search_nodes_c6 _ "x", by decide⟩

/-! ### add_observations lemmas -/

theorem list_any_map {α β : Type} (f : α → β) (l : List α) (p : β → Bool) :
    (l.map f).any p = l.any (fun a => p (f a)) := by
  induction l with
  | nil => rfl
  | cons x xs ih => simp [List.any_cons, ih]

theorem addToEntities_isSome (es : List Entity) (n : String) (cs : List String) (now : String) :
    (addToEntities es n cs now).isSome = es.any (fun e => e.name == n) := by
  induction es with
  | nil => rfl
  | cons e rest ih =>
    rw [addToEntities]
    by_cases hb : (e.name == n) = true
    · rw [if_pos hb]
      simp [hb]
    · rw [if_neg hb]
      have hbf : (e.name == n) = false := by simpa using hb
      rw [List.any_cons, hbf, Bool.false_or, ← ih]
      cases hrec : addToEntities rest n cs now with
      | none => rfl
      | some p =>
        obtain ⟨rest2, added⟩ := p
        rfl

theorem addToEntities_names (es : List Entity) (n : String) (cs : List String) (now : String)
    (es2 : List Entity) (added : List String)
    (h : addToEntities es n cs now = some (es2, added)) :
    es2.map Entity.name = es.map Entity.name := by
  induction es generalizing es2 added with
  | nil => cases h
  | cons e rest ih =>
    rw [addToEntities] at h
    by_cases hb : (e.name == n) = true
    · rw [if_pos hb] at h
      injection h with h
      cases h
      simp
    · rw [if_neg hb] at h
      cases hrec : addToEntities rest n cs now with
      | none => rw [hrec] at h; cases h
      | some p =>
        obtain ⟨rest2, added0⟩ := p
        rw [hrec] at h
        injection h with h
        rw [Prod.mk.injEq] at h
        obtain ⟨h1, h2⟩ := h
        subst h1
        simpa using ih rest2 added0 hrec

theorem any_name_congr (es es2 : List Entity)
    (h : es.map Entity.name = es2.map Entity.name) (m : String) :
    es.any (fun e => e.name == m) = es2.any (fun e => e.name == m) := by
  have h1 := list_any_map Entity.name es (fun s => s == m)
  have h2 := list_any_map Entity.name es2 (fun s => s == m)
  rw [← h1, ← h2, h]

theorem firstMissing_congr (g g2 : KnowledgeGraph)
    (h : g.entities.map Entity.name = g2.entities.map Entity.name)
    (items : List ObservationItem) :
    firstMissing g items = firstMissing g2 items := by
  induction items with
  | nil => rfl
  | cons it rest ih =>
    rw [firstMissing, firstMissing, ih, any_name_congr g.entities g2.entities h it.entityName]

theorem add_observations_error_of_firstMissing (items : List ObservationItem)
    (g : KnowledgeGraph) (now : String) (n : String)
    (h : firstMissing g items = some n) :
    add_observations g items now = .error ("Entity " ++ n ++ " not found") := by
  induction items generalizing g with
  | nil => cases h
  | cons it rest ih =>
    rw [firstMissing] at h
    by_cases hb : (g.entities.any fun e => e.name == it.entityName) = true
    · rw [if_pos hb] at h
      have hsome : (addToEntities g.entities it.entityName it.contents now).isSome := by
        rw [addToEntities_isSome]; exact hb
      obtain ⟨⟨es2, added⟩, heq⟩ := Option.isSome_iff_exists.mp hsome
      simp only [add_observations, heq]
      have hnames := addToEntities_names g.entities it.entityName it.contents now es2 added heq
      have hfm : firstMissing ⟨es2, g.relations⟩ rest = some n := by
        rw [firstMissing_congr ⟨es2, g.relations⟩ g hnames]; exact h
      rw [ih ⟨es2, g.relations⟩ hfm]
    · rw [if_neg hb] at h
      injection h with h
      subst h
      have hnone : addToEntities g.entities it.entityName it.contents now = none := by
        cases hopt : addToEntities g.entities it.entityName it.contents now with
        | none => rfl
        | some p =>
          exfalso
          apply hb
          rw [← addToEntities_isSome g.entities it.entityName it.contents now, hopt]
          rfl
      simp only [add_observations, hnone]

theorem firstMissing_isSome_of_missing (g : KnowledgeGraph) (items : List ObservationItem)
    (h : ∃ it ∈ items, ∀ e ∈ g.entities, e.name ≠ it.entityName) :
    ∃ n, firstMissing g items = some n := by
  induction items with
  | nil =>
    obtain ⟨it, hmem, _⟩ := h
    cases hmem
  | cons it0 rest ih =>
    rw [firstMissing]
    by_cases hb : (g.entities.any fun e => e.name == it0.entityName) = true
    · rw [if_pos hb]
      apply ih
      obtain ⟨it, hmem, hmiss⟩ := h
      rcases List.mem_cons.mp hmem with rfl | hmem2
      · rw [List.any_eq_true] at hb
        obtain ⟨e, he, hbeq⟩ := hb
        exact absurd (by simpa using hbeq) (hmiss e he)
      · exact ⟨it, hmem2, hmiss⟩
    · rw [if_neg hb]
      exact ⟨it0.entityName, rfl⟩

theorem firstMissing_spec (g : KnowledgeGraph) (items : List ObservationItem) (n : String)
    (h : firstMissing g items = some n) :
    (∃ it ∈ items, it.entityName = n) ∧ ∀ e ∈ g.entities, e.name ≠ n := by
  induction items with
  | nil => cases h
  | cons it0 rest ih =>
    rw [firstMissing] at h
    by_cases hb : (g.entities.any fun e => e.name == it0.entityName) = true
    · rw [if_pos hb] at h
      obtain ⟨⟨it, hm, hn⟩, hmiss⟩ := ih h
      exact ⟨⟨it, List.mem_cons_of_mem _ hm, hn⟩, hmiss⟩
    · rw [if_neg hb] at h
      injection h with h
      subst h
      refine ⟨⟨it0, List.mem_cons_self _ _, rfl⟩, ?_⟩
      intro e he heq
      apply hb
      rw [List.any_eq_true]
      exact ⟨e, he, by simpa using heq⟩

/-- C2: when some AddObservations item references a nonexistent entity, the
call fails with a 404 naming a missing entity, and the persisted log is left
exactly as it was: the exception is raised before save_graph runs, so nothing
from the batch — including items processed before the failure — reaches disk. -/
theorem add_observations_c2 (s : LogState) (items : List ObservationItem) (now : String)
    (h : ∃ it ∈ items, ∀ e ∈ (read_graph_file s).entities, e.name ≠ it.entityName) :
    ∃ n, (∃ it ∈ items, it.entityName = n)
      ∧ (∀ e ∈ (read_graph_file s).entities, e.name ≠ n)
      ∧ add_observations_endpoint s items now =
          (s, .error ("Entity " ++ n ++ " not found")) := by
  obtain ⟨n, hfm⟩ := firstMissing_isSome_of_missing (read_graph_file s) items h
  obtain ⟨hex, hmiss⟩ := firstMissing_spec (read_graph_file s) items n hfm
  refine ⟨n, hex, hmiss, ?_⟩
  unfold add_observations_endpoint
  rw [add_observations_error_of_firstMissing items (read_graph_file s) now n hfm]

/-- Witness for C2: adding observations to "Ghost" on an empty (missing) log
errors with the 404 message and leaves the log missing. -/
theorem add_observations_c2_witness :
    ∃ n, (∃ it ∈ [(⟨"Ghost", ["boo"]⟩ : ObservationItem)], it.entityName = n)
      ∧ (∀ e ∈ (read_graph_file none).entities, e.name ≠ n)
      ∧ add_observations_endpoint none [⟨"Ghost", ["boo"]⟩] "t" =
          (none, .error ("Entity " ++ n ++ " not found")) :=
  add_observations_c2 none [⟨"Ghost", ["boo"]⟩] "t"
    ⟨⟨"Ghost", ["boo"]⟩, List.mem_singleton_self _,
     fun e he => absurd he (List.not_mem_nil e)⟩

theorem addToEntities_append (l₁ l₂ : List Entity) (e : Entity) (n : String)
    (cs : List String) (now : String)
    (h₁ : ∀ x ∈ l₁, x.name ≠ n) (h₂ : e.name = n) :
    addToEntities (l₁ ++ e :: l₂) n cs now =
      some (l₁ ++ { e with
              observations := e.observations ++ cs.filter (fun c => !e.observations.contains c),
              updated_at := some now } :: l₂,
            cs.filter (fun c => !e.observations.contains c)) := by
  induction l₁ with
  | nil =>
    rw [List.nil_append, addToEntities, if_pos (by simpa using h₂)]
    rfl
  | cons x l₁ ih =>
    have hx : (x.name == n) = false := by
      simpa using h₁ x (List.mem_cons_self x l₁)
    rw [List.cons_append, addToEntities, if_neg (by simp [hx]),
        ih (fun y hy => h₁ y (List.mem_cons_of_mem x hy))]
    rfl

/-- C5 counterexample: one AddObservations call on entities E (no
observations) and F (observation "y"). The item for E repeats "x" twice in
its contents, and both copies are appended, so a duplicate observation is
introduced; the item for F adds nothing, yet updated_at on F is still set. -/
theorem add_observations_c5_counterexample :
    (add_observations
        ⟨[{ name := "E", entityType := "T", observations := [] },
          { name := "F", entityType := "T", observations := ["y"] }], []⟩
        [⟨"E", ["x", "x"]⟩, ⟨"F", ["y"]⟩] "t").toOption =
      some (⟨[{ name := "E", entityType := "T", observations := ["x", "x"],
                updated_at := some "t" },
              { name := "F", entityType := "T", observations := ["y"],
                updated_at := some "t" }], []⟩,
            [⟨"E", ["x", "x"]⟩, ⟨"F", []⟩])
    ∧ ¬ (["x", "x"] : List String).Nodup := by
  constructor
  · decide
  · decide

/-- C5 (amended): for an AddObservations item whose entity exists, the code
appends `contents.filter (not already observed)` verbatim — repeats inside one
item's contents are appended repeatedly, so duplicates can be introduced — and
sets updated_at for every processed item whether or not anything was added;
the result reports the entity name and the appended list. Stated for a
one-item call against the first entity carrying the referenced name, with all
other entities and the relations untouched. -/
theorem add_observations_c5 (l₁ l₂ : List Entity) (e : Entity) (rels : List Relation)
    (it : ObservationItem) (now : String)
    (h₁ : ∀ x ∈ l₁, x.name ≠ it.entityName) (h₂ : e.name = it.entityName) :
    add_observations ⟨l₁ ++ e :: l₂, rels⟩ [it] now =
      .ok (⟨l₁ ++ { e with
              observations := e.observations ++
                it.contents.filter (fun c => !e.observations.contains c),
              updated_at := some now } :: l₂, rels⟩,
           [⟨it.entityName, it.contents.filter (fun c => !e.observations.contains c)⟩]) := by
  simp only [add_observations, addToEntities_append l₁ l₂ e it.entityName it.contents now h₁ h₂]

/-- Witness for C5: adding ["x", "y"] to an entity that already observes "x"
appends exactly ["y"] and stamps updated_at. -/
theorem add_observations_c5_witness :
    add_observations ⟨[{ name := "E", entityType := "T", observations := ["x"] }], []⟩
        [⟨"E", ["x", "y"]⟩] "t" =
      .ok (⟨[{ name := "E", entityType := "T", observations := ["x", "y"],
               updated_at := some "t" }], []⟩,
           [⟨"E", ["y"]⟩]) := by
  have h := add_observations_c5 [] []
    { name := "E", entityType := "T", observations := ["x"] } [] ⟨"E", ["x", "y"]⟩ "t"
    (fun x hx => absurd hx (List.not_mem_nil x)) rfl
  simpa using h

/-! ### delete_observations lemmas -/

theorem delete_observations_cons (g : KnowledgeGraph) (d : DeletionItem)
    (ds : List DeletionItem) (now : String) :
    delete_observations g (d :: ds) now =
      delete_observations ⟨delObsEntities g.entities d.entityName d.observations now,
                           g.relations⟩ ds now := rfl

theorem delObsEntities_find_same (es : List Entity) (n : String) (obs : List String)
    (now : String) (e : Entity)
    (h : es.find? (fun x => x.name == n) = some e) :
    (delObsEntities es n obs now).find? (fun x => x.name == n) =
      some { e with observations := e.observations.filter (fun o => !obs.contains o),
                    updated_at := some now } := by
  induction es with
  | nil => cases h
  | cons x rest ih =>
    rw [delObsEntities]
    by_cases hb : (x.name == n) = true
    · rw [if_pos hb]
      rw [List.find?_cons_of_pos (p := fun y => y.name == n) rest hb] at h
      injection h with h
      subst h
      exact List.find?_cons_of_pos (p := fun y => y.name == n)
        (a := { x with observations := x.observations.filter (fun o => !obs.contains o),
                       updated_at := some now }) rest hb
    · rw [if_neg hb]
      rw [List.find?_cons_of_neg (p := fun y => y.name == n) rest hb] at h
      rw [List.find?_cons_of_neg (p := fun y => y.name == n) (delObsEntities rest n obs now) hb]
      exact ih h

theorem delObsEntities_find_other (es : List Entity) (n : String) (obs : List String)
    (now : String) (m : String) (hne : m ≠ n) :
    (delObsEntities es n obs now).find? (fun x => x.name == m) =
      es.find? (fun x => x.name == m) := by
  induction es with
  | nil => rfl
  | cons x rest ih =>
    rw [delObsEntities]
    by_cases hb : (x.name == n) = true
    · rw [if_pos hb]
      have hxn : x.name = n := by simpa using hb
      have hxm : ¬ ((x.name == m) = true) := by
        simp [hxn]
        exact fun hc => hne hc.symm
      rw [List.find?_cons_of_neg (p := fun y => y.name == m)
            (a := { x with observations := x.observations.filter (fun o => !obs.contains o),
                           updated_at := some now }) rest hxm,
          List.find?_cons_of_neg (p := fun y => y.name == m) (a := x) rest hxm]
    · rw [if_neg hb]
      by_cases hxm : (x.name == m) = true
      · rw [List.find?_cons_of_pos (p := fun y => y.name == m) (delObsEntities rest n obs now) hxm,
            List.find?_cons_of_pos (p := fun y => y.name == m) rest hxm]
      · rw [List.find?_cons_of_neg (p := fun y => y.name == m) (delObsEntities rest n obs now) hxm,
            List.find?_cons_of_neg (p := fun y => y.name == m) rest hxm]
        exact ih

theorem delObsEntities_preserve (es : List Entity) (n : String) (obs : List String)
    (now : String) (m : String) (e : Entity) (A : List String)
    (hf : es.find? (fun x => x.name == m) = some e)
    (hA : ∀ o ∈ A, o ∉ e.observations) (hu : e.updated_at = some now) :
    ∃ e2, (delObsEntities es n obs now).find? (fun x => x.name == m) = some e2
      ∧ (∀ o ∈ A, o ∉ e2.observations) ∧ e2.updated_at = some now := by
  by_cases hmn : m = n
  · subst hmn
    refine ⟨_, delObsEntities_find_same es m obs now e hf, ?_, rfl⟩
    intro o ho hmem
    rw [List.mem_filter] at hmem
    exact hA o ho hmem.1
  · exact ⟨e, by rw [delObsEntities_find_other es n obs now m hmn]; exact hf, hA, hu⟩

theorem delete_observations_preserve (ds : List DeletionItem) (g : KnowledgeGraph)
    (now : String) (m : String) (e : Entity) (A : List String)
    (hf : g.entities.find? (fun x => x.name == m) = some e)
    (hA : ∀ o ∈ A, o ∉ e.observations) (hu : e.updated_at = some now) :
    ∃ e2, (delete_observations g ds now).entities.find? (fun x => x.name == m) = some e2
      ∧ (∀ o ∈ A, o ∉ e2.observations) ∧ e2.updated_at = some now := by
  induction ds generalizing g e with
  | nil => exact ⟨e, hf, hA, hu⟩
  | cons d tl ih =>
    obtain ⟨e1, hf1, hA1, hu1⟩ :=
      delObsEntities_preserve g.entities d.entityName d.observations now m e A hf hA hu
    rw [delete_observations_cons]
    exact ih ⟨delObsEntities g.entities d.entityName d.observations now, g.relations⟩ e1 hf1 hA1 hu1

theorem delObsEntities_find_isSome (es : List Entity) (n : String) (obs : List String)
    (now : String) (m : String) (e : Entity)
    (hf : es.find? (fun x => x.name == m) = some e) :
    ∃ e1, (delObsEntities es n obs now).find? (fun x => x.name == m) = some e1 := by
  by_cases hmn : m = n
  · subst hmn
    exact ⟨_, delObsEntities_find_same es m obs now e hf⟩
  · exact ⟨e, by rw [delObsEntities_find_other es n obs now m hmn]; exact hf⟩

theorem delete_observations_find_aux :
    ∀ (ds : List DeletionItem) (g : KnowledgeGraph) (now : String) (d : DeletionItem),
      d ∈ ds → ∀ e, g.entities.find? (fun x => x.name == d.entityName) = some e →
      ∃ e2, (delete_observations g ds now).entities.find?
              (fun x => x.name == d.entityName) = some e2
        ∧ (∀ o ∈ d.observations, o ∉ e2.observations)
        ∧ e2.updated_at = some now := by
  intro ds
  induction ds with
  | nil => intro g now d hd; cases hd
  | cons d0 tl ih =>
    intro g now d hd e he
    rw [delete_observations_cons]
    rcases List.mem_cons.mp hd with rfl | hd2
    · have h1 := delObsEntities_find_same g.entities d.entityName d.observations now e he
      have habs : ∀ o ∈ d.observations,
          o ∉ ({ e with observations := e.observations.filter (fun o => !d.observations.contains o),
                        updated_at := some now } : Entity).observations := by
        intro o ho hmem
        rw [List.mem_filter] at hmem
        have hno : o ∉ d.observations := by simpa using hmem.2
        exact hno ho
      exact delete_observations_preserve tl
        ⟨delObsEntities g.entities d.entityName d.observations now, g.relations⟩
        now d.entityName _ d.observations h1 habs rfl
    · obtain ⟨e1, hf1⟩ :=
        delObsEntities_find_isSome g.entities d0.entityName d0.observations now d.entityName e he
      exact ih ⟨delObsEntities g.entities d0.entityName d0.observations now, g.relations⟩
        now d hd2 e1 hf1

/-- C10: in any DeleteObservations call, every deletion entry naming an
existing entity leaves the (first) entity of that name with none of the listed
observation strings in its sequence — every occurrence is removed, not just
the first — and with updated_at refreshed to the call time even when none of
the listed observations were present. -/
theorem delete_observations_c10 (ds : List DeletionItem) (g : KnowledgeGraph)
    (now : String) (d : DeletionItem) (hd : d ∈ ds) (e : Entity)
    (he : g.entities.find? (fun x => x.name == d.entityName) = some e) :
    ∃ e2, (delete_observations g ds now).entities.find?
            (fun x => x.name == d.entityName) = some e2
      ∧ (∀ o ∈ d.observations, o ∉ e2.observations)
      ∧ e2.updated_at = some now :=
  delete_observations_find_aux ds g now d hd e he

/-- Witness for C10: deleting ["x", "z"] from an entity observing
["x", "y", "x"] (with "z" absent) removes both copies of "x" and refreshes
updated_at. -/
theorem delete_observations_c10_witness :
    ∃ e2, (delete_observations
            ⟨[{ name := "E", entityType := "T", observations := ["x", "y", "x"] }], []⟩
            [⟨"E", ["x", "z"]⟩] "t").entities.find?
              (fun x => x.name == (⟨"E", ["x", "z"]⟩ : DeletionItem).entityName) = some e2
      ∧ (∀ o ∈ (⟨"E", ["x", "z"]⟩ : DeletionItem).observations, o ∉ e2.observations)
      ∧ e2.updated_at = some "t" :=
  delete_observations_c10 [⟨"E", ["x", "z"]⟩]
    ⟨[{ name := "E", entityType := "T", observations := ["x", "y", "x"] }], []⟩ "t"
    ⟨"E", ["x", "z"]⟩ (List.mem_singleton_self _)
    { name := "E", entityType := "T", observations := ["x", "y", "x"] } (by decide)

/-- C3 failing input: the claim promises that CreateEntities completes without
raising for every input, but the endpoint raises a TypeError (duplicate
`created_at` keyword in `Entity(**e.dict(), created_at=now)`) as soon as the
request holds one entity with a fresh name — here a single entity "A" against
an absent log — and the file is left unwritten. -/
theorem create_entities_c3_bug :
    create_entities_endpoint none [{ name := "A", entityType := "T", observations := [] }] "t"
      = (none, .error "TypeError: got multiple values for keyword argument created_at") := rfl

/-- C4 failing input: CreateEntities on the empty graph with the single fresh
entity "B" raises TypeError instead of appending "B", stamping created_at and
returning the inserted subset. -/
theorem create_entities_c4_bug :
    create_entities ⟨[], []⟩ [{ name := "B", entityType := "T", observations := [] }] "t"
      = .error "TypeError: got multiple values for keyword argument created_at" := rfl

end KG
